import Mathlib

/-!
Shallow embedding of the real-time direct-messaging subsystem of the
`tb-backend` repository: the `MessagesService` operations
(`getOrCreateConversation`, `getConversation`, `sendMessage`, `getMessages`,
`markMessagesAsRead`, `deleteMessage`) and the `MessagesGateway`
connection registry (`handleConnection` / `handleDisconnect`).

The relational store is modelled as explicit lists of records; `new Date()`
is modelled by a logical clock `now`; generated row ids come from a counter
`nextId`.  Exceptions (`BadRequestException`, `NotFoundException`,
`ForbiddenException`, and persistence-layer failures) become an `Err`
value; operations that mutate state return the state they leave behind even
when they fail partway (the service uses no database transaction, so writes
performed before a later failure persist).
-/

set_option autoImplicit false

deriving instance DecidableEq for Except

namespace TB

/-- A user row, reduced to the fields the messaging code reads
(`id`, `allowMessages`; `displayName` is only used to render the
notification body, which we elide). -/
structure UserRec where
  id : String
  allowMessages : Bool
  deriving DecidableEq, Repr

/-- A `Conversation` row (prisma migration): canonical participant pair,
denormalized last-message fields and the two unread counters.
`updatedAt` is not modelled. -/
structure Conversation where
  id : String
  participant1Id : String
  participant2Id : String
  lastMessageAt : Nat
  lastMessageText : Option String
  unreadCount1 : Nat
  unreadCount2 : Nat
  deriving DecidableEq, Repr

/-- A `Message` row (prisma migration).  `reactions` and `updatedAt` are
not modelled. -/
structure Message where
  id : String
  conversationId : String
  senderId : String
  content : String
  read : Bool
  readAt : Option Nat
  attachmentUrl : Option String
  attachmentType : Option String
  deletedAt : Option Nat
  deletedBySender : Bool
  deletedByReceiver : Bool
  createdAt : Nat
  deriving DecidableEq, Repr

/-- A `Notification` row as written by `createMessageNotification`
(receiver, sender, and the conversation the `actionUrl` points at; the
`title`/`message` strings are elided). -/
structure NotificationRec where
  userId : String
  fromUserId : String
  conversationId : String
  deriving DecidableEq, Repr

/-- WebSocket pushes performed by the service through `MessagesGateway`. -/
inductive Evt where
  | newMessage (receiverId : String) (messageId : String)
  | messageRead (userId : String) (conversationId : String)
  deriving DecidableEq, Repr

/-- The NestJS HTTP exceptions thrown by `MessagesService`, plus
`internal` for a failure surfaced by the persistence collaborator
(e.g. the notification write). -/
inductive Err where
  | badRequest
  | notFound
  | forbidden
  | internal
  deriving DecidableEq, Repr

/-- The `deleteFor` argument of `MessagesService.deleteMessage`. -/
inductive DeleteScope where
  | sender
  | receiver
  | both
  deriving DecidableEq, Repr

/-- `CreateMessageDto` (content plus optional attachment metadata). -/
structure CreateMessageDto where
  content : String
  attachmentUrl : Option String := none
  attachmentType : Option String := none
  deriving DecidableEq, Repr

/-- The whole persisted state visible to the messaging service, plus a
logical clock, an id counter, the gateway-event log, and a fault-injection
flag for the notification store write (the external collaborator may fail;
the service code itself contains no try/catch around it). -/
structure DB where
  users : List UserRec
  conversations : List Conversation
  messages : List Message
  notifications : List NotificationRec
  events : List Evt
  now : Nat
  nextId : Nat
  notificationWriteFails : Bool
  deriving DecidableEq, Repr

/-- Pagination metadata as assembled by the service. -/
structure PageMeta where
  page : Nat
  limit : Nat
  total : Nat
  totalPages : Nat
  hasNext : Bool
  hasPrevious : Bool
  deriving DecidableEq, Repr

/-- `Math.ceil (total / limit)` on naturals. -/
def ceilDiv (total limit : Nat) : Nat := (total + limit - 1) / limit

/-- `MessagesService.getConversation`: look the row up by id, then check
the requester is one of the two participants.  Read-only. -/
def getConversation (db : DB) (conversationId userId : String) :
    Except Err Conversation :=
  match db.conversations.find? (fun c => c.id == conversationId) with
  | none => .error .notFound
  | some conversation =>
    if conversation.participant1Id != userId && conversation.participant2Id != userId then
      .error .forbidden
    else
      .ok conversation

/-- Lexicographic comparison of character lists (the order JavaScript's
default `Array.prototype.sort` applies to strings). -/
def charListLe : List Char → List Char → Bool
  | [], _ => true
  | _ :: _, [] => false
  | a :: as, b :: bs =>
    if a < b then true else if b < a then false else charListLe as bs

/-- Lexicographic string comparison over the underlying characters. -/
def strLe (a b : String) : Bool := charListLe a.data b.data

/-- The canonicalisation `[user1Id, user2Id].sort()` used by
`getOrCreateConversation`: lexicographically smaller id first. -/
def sortPair (a b : String) : String × String :=
  if strLe a b then (a, b) else (b, a)

/-- `MessagesService.getOrCreateConversation`: reject self-conversation
(`BadRequestException`), missing counterpart (`NotFoundException`),
counterpart with messages disabled (`ForbiddenException`); otherwise look
the canonical pair up and create the row if absent. -/
def getOrCreateConversation (db : DB) (user1Id user2Id : String) :
    DB × Except Err Conversation :=
  if user1Id == user2Id then
    (db, .error .badRequest)
  else
    match db.users.find? (fun u => u.id == user2Id) with
    | none => (db, .error .notFound)
    | some targetUser =>
      if !targetUser.allowMessages then
        (db, .error .forbidden)
      else
        let p := sortPair user1Id user2Id
        match db.conversations.find?
            (fun c => c.participant1Id == p.1 && c.participant2Id == p.2) with
        | some conversation => (db, .ok conversation)
        | none =>
          let conversation : Conversation :=
            { id := "c" ++ toString db.nextId
              participant1Id := p.1
              participant2Id := p.2
              lastMessageAt := db.now
              lastMessageText := none
              unreadCount1 := 0
              unreadCount2 := 0 }
          ({ db with
              conversations := db.conversations ++ [conversation]
              nextId := db.nextId + 1 },
           .ok conversation)

/-- The message row built by `prisma.message.create` inside `sendMessage`
(schema defaults: `read = false`, both delete flags `false`,
`createdAt = now`). -/
def mkMessage (db : DB) (conversationId senderId : String)
    (dto : CreateMessageDto) : Message :=
  { id := "m" ++ toString db.nextId
    conversationId := conversationId
    senderId := senderId
    content := dto.content
    read := false
    readAt := none
    attachmentUrl := dto.attachmentUrl
    attachmentType := dto.attachmentType
    deletedAt := none
    deletedBySender := false
    deletedByReceiver := false
    createdAt := db.now }

/-- First write of `sendMessage`: persist the message row. -/
def appendStep (db : DB) (m : Message) : DB :=
  { db with messages := db.messages ++ [m], nextId := db.nextId + 1 }

/-- The row update of `sendMessage`'s `conversation.update`: set the
denormalized last-message fields and increment the receiver's unread
counter on the matching conversation row. -/
def touchFn (conversationId : String) (isParticipant1 : Bool)
    (content : String) (now : Nat) (c : Conversation) : Conversation :=
  if c.id == conversationId then
    { c with
        lastMessageAt := now
        lastMessageText := some (content.take 100)
        unreadCount1 := if isParticipant1 then c.unreadCount1 else c.unreadCount1 + 1
        unreadCount2 := if isParticipant1 then c.unreadCount2 + 1 else c.unreadCount2 }
  else c

/-- Second write of `sendMessage`: `prisma.conversation.update`. -/
def touchStep (db : DB) (conversationId : String) (isParticipant1 : Bool)
    (content : String) (now : Nat) : DB :=
  { db with
      conversations :=
        db.conversations.map (touchFn conversationId isParticipant1 content now) }

/-- `createMessageNotification`: a write into the notification store. -/
def notifyStep (db : DB) (receiverId senderId conversationId : String) : DB :=
  { db with
      notifications := db.notifications ++
        [{ userId := receiverId, fromUserId := senderId, conversationId := conversationId }] }

/-- A gateway push (`emitNewMessage` / `emitMessageRead`). -/
def emitStep (db : DB) (e : Evt) : DB :=
  { db with events := db.events ++ [e] }

/-- `MessagesService.sendMessage`: verify participant, persist the message,
touch the conversation (append before touch), `await` the notification
write — which the code does NOT guard with try/catch, so when the
notification store fails the error propagates and the gateway emit is never
reached, with the message and counter writes already committed — then emit
the WebSocket event and return the message. -/
def sendMessage (db : DB) (conversationId senderId : String)
    (dto : CreateMessageDto) : DB × Except Err Message :=
  match getConversation db conversationId senderId with
  | .error e => (db, .error e)
  | .ok conversation =>
    let receiverId :=
      if conversation.participant1Id == senderId then conversation.participant2Id
      else conversation.participant1Id
    let message := mkMessage db conversationId senderId dto
    let db1 := appendStep db message
    let db2 := touchStep db1 conversationId (senderId == conversation.participant1Id)
      dto.content db.now
    if db.notificationWriteFails then
      (db2, .error .internal)
    else
      let db3 := notifyStep db2 receiverId senderId conversationId
      let db4 := emitStep db3 (.newMessage receiverId message.id)
      (db4, .ok message)

/-- Visibility filter of `getMessages.findMany`: same conversation, not
hard-deleted, and the requester's own side-flag is clear
(`deletedBySender` when the requester authored the message,
`deletedByReceiver` otherwise). -/
def visibleTo (conversationId userId : String) (m : Message) : Bool :=
  m.conversationId == conversationId && m.deletedAt.isNone &&
    ((m.senderId == userId && m.deletedBySender == false) ||
     (m.senderId != userId && m.deletedByReceiver == false))

/-- The `count` filter of `getMessages`: only conversation and
`deletedAt: null` — no per-side visibility. -/
def countedInTotal (conversationId : String) (m : Message) : Bool :=
  m.conversationId == conversationId && m.deletedAt.isNone

/-- Descending `createdAt` ordering used by `orderBy createdAt desc`:
`a` comes no later than `b` in the result when `a` is at least as
recent. -/
def newerEq (a b : Message) : Prop := b.createdAt ≤ a.createdAt

instance : DecidableRel newerEq :=
  fun a b => inferInstanceAs (Decidable (b.createdAt ≤ a.createdAt))

instance : IsTotal Message newerEq :=
  ⟨fun a b => Nat.le_total b.createdAt a.createdAt⟩

instance : IsTrans Message newerEq :=
  ⟨fun _ _ _ hab hbc => Nat.le_trans hbc hab⟩

/-- `MessagesService.getMessages`: verify participant; fetch the visible
messages newest-first with `skip = (page-1)*limit` / `take = limit`, then
reverse the page so it reads oldest-to-newest; `total` counts every
non-hard-deleted message of the conversation. -/
def getMessages (db : DB) (conversationId userId : String)
    (page limit : Nat) : Except Err (List Message × PageMeta) :=
  match getConversation db conversationId userId with
  | .error e => .error e
  | .ok _ =>
    let skip := (page - 1) * limit
    let sorted := (db.messages.filter (visibleTo conversationId userId)).insertionSort newerEq
    let data := ((sorted.drop skip).take limit).reverse
    let total := (db.messages.filter (countedInTotal conversationId)).length
    let totalPages := ceilDiv total limit
    .ok (data,
      { page := page
        limit := limit
        total := total
        totalPages := totalPages
        hasNext := decide (page < totalPages)
        hasPrevious := decide (1 < page) })

/-- The visible messages of a conversation for a user, newest first — the
rows `getMessages.findMany` returns before pagination. -/
def visibleSorted (db : DB) (cid uid : String) : List Message :=
  (db.messages.filter (visibleTo cid uid)).insertionSort newerEq

/-- The `data` page assembled by `getMessages`. -/
def pageOf (db : DB) (cid uid : String) (page limit : Nat) : List Message :=
  (((visibleSorted db cid uid).drop ((page - 1) * limit)).take limit).reverse

/-- The `total` figure of `getMessages` (no per-side visibility filter). -/
def totalOf (db : DB) (cid : String) : Nat :=
  (db.messages.filter (countedInTotal cid)).length

/-- The row update of `markMessagesAsRead`'s `conversation.update`: zero
the reader's counter on the matching conversation row. -/
def zeroCounterFn (conversationId : String) (isParticipant1 : Bool)
    (c : Conversation) : Conversation :=
  if c.id == conversationId then
    if isParticipant1 then { c with unreadCount1 := 0 }
    else { c with unreadCount2 := 0 }
  else c

/-- The row update of `markMessagesAsRead`'s `message.updateMany`: flip
`read`/`readAt` on unread messages of the conversation authored by the
other participant. -/
def markReadFn (conversationId otherUserId : String) (now : Nat)
    (m : Message) : Message :=
  if m.conversationId == conversationId && m.senderId == otherUserId && m.read == false then
    { m with read := true, readAt := some now }
  else m

/-- `MessagesService.markMessagesAsRead`: verify participant, zero the
reader's unread counter, flip `read`/`readAt` on every unread message from
the other participant, and emit the read receipt. -/
def markMessagesAsRead (db : DB) (conversationId userId : String) :
    DB × Except Err Unit :=
  match getConversation db conversationId userId with
  | .error e => (db, .error e)
  | .ok conversation =>
    let isParticipant1 := userId == conversation.participant1Id
    let db1 : DB := { db with
      conversations := db.conversations.map (zeroCounterFn conversationId isParticipant1) }
    let otherUserId :=
      if isParticipant1 then conversation.participant2Id
      else conversation.participant1Id
    let db2 : DB := { db1 with
      messages := db1.messages.map (markReadFn conversationId otherUserId db.now) }
    let db3 := emitStep db2 (.messageRead otherUserId conversationId)
    (db3, .ok ())

/-- `MessagesService.deleteMessage`: look the message up (with its
conversation via the required foreign key; a dangling reference would be a
store-level error), check the requester is a participant, then follow the
source's branch chain on `deleteFor` and the authorship flag. -/
def deleteMessage (db : DB) (messageId userId : String)
    (deleteFor : DeleteScope) : DB × Except Err Unit :=
  match db.messages.find? (fun m => m.id == messageId) with
  | none => (db, .error .notFound)
  | some message =>
    match db.conversations.find? (fun c => c.id == message.conversationId) with
    | none => (db, .error .internal)
    | some conversation =>
      if conversation.participant1Id != userId && conversation.participant2Id != userId then
        (db, .error .forbidden)
      else
        let isSender := message.senderId == userId
        if deleteFor == .both then
          ({ db with messages := db.messages.map (fun m =>
              if m.id == messageId then
                { m with deletedAt := some db.now
                         deletedBySender := true
                         deletedByReceiver := true }
              else m) },
           .ok ())
        else if deleteFor == .sender && isSender then
          ({ db with messages := db.messages.map (fun m =>
              if m.id == messageId then { m with deletedBySender := true } else m) },
           .ok ())
        else if deleteFor == .receiver && !isSender then
          ({ db with messages := db.messages.map (fun m =>
              if m.id == messageId then { m with deletedByReceiver := true } else m) },
           .ok ())
        else
          (db, .error .forbidden)

/-! ### Connection registry (`MessagesGateway`)

`userSockets : Map<userId, socketId>` and `socketUsers : Map<socketId,
userId>` are JavaScript `Map`s; we model each as an insertion-ordered
association list with the `Map` operations `set` / `get` / `delete` /
`has`. -/

/-- JS `Map.prototype.set`: replace the value in place if the key is
present (keys are unique in a `Map`, so the first occurrence is the
entry), otherwise append the pair. -/
def mapSet : List (String × String) → String → String → List (String × String)
  | [], k, v => [(k, v)]
  | p :: t, k, v => if p.1 == k then (k, v) :: t else p :: mapSet t k v

/-- JS `Map.prototype.get`. -/
def mapGet (m : List (String × String)) (k : String) : Option String :=
  (m.find? (fun p => p.1 == k)).map (fun p => p.2)

/-- JS `Map.prototype.delete` (ignoring the returned Boolean). -/
def mapDelete (m : List (String × String)) (k : String) :
    List (String × String) :=
  m.filter (fun p => p.1 != k)

/-- JS `Map.prototype.has`. -/
def mapHas (m : List (String × String)) (k : String) : Bool :=
  m.any (fun p => p.1 == k)

/-- The gateway's two in-memory maps. -/
structure Registry where
  userSockets : List (String × String)
  socketUsers : List (String × String)
  deriving DecidableEq, Repr

/-- The binding step of `MessagesGateway.handleConnection` after a
successful JWT verification: `userSockets.set(userId, client.id)` and
`socketUsers.set(client.id, userId)`. -/
def bindConn (r : Registry) (userId socketId : String) : Registry :=
  { userSockets := mapSet r.userSockets userId socketId
    socketUsers := mapSet r.socketUsers socketId userId }

/-- `MessagesGateway.handleDisconnect`: look the user up through the
reverse map; when found, delete that user's forward entry and the socket's
reverse entry; when the socket is unknown, do nothing. -/
def unbindConn (r : Registry) (socketId : String) : Registry :=
  match mapGet r.socketUsers socketId with
  | none => r
  | some userId =>
    { userSockets := mapDelete r.userSockets userId
      socketUsers := mapDelete r.socketUsers socketId }

/-- `MessagesGateway.isUserOnline`. -/
def isUserOnline (r : Registry) (userId : String) : Bool :=
  mapHas r.userSockets userId

/-- The socket a user's pushes would go to (`userSockets.get`). -/
def connectionOf (r : Registry) (userId : String) : Option String :=
  mapGet r.userSockets userId

/-! ### Invariants and helper predicates -/

/-- Number of persisted messages of conversation `convId` authored by
`sender` and not yet read. -/
def unreadFrom (db : DB) (convId sender : String) : Nat :=
  db.messages.countP (fun m =>
    m.conversationId == convId && m.senderId == sender && m.read == false)

/-- Number of persisted messages of conversation `convId` authored by
`sender`, not yet read, and still visible to their receiver (not
hard-deleted and not soft-deleted on the receiver's side). -/
def unreadVisibleFrom (db : DB) (convId sender : String) : Nat :=
  db.messages.countP (fun m =>
    m.conversationId == convId && m.senderId == sender && m.read == false &&
      m.deletedAt.isNone && m.deletedByReceiver == false)

/-- The unread-counter invariant exactly as the specification states it:
each side's counter equals the number of unread messages from the other
side that are not soft-deleted for the counter's owner. -/
def StrictUnreadInv (db : DB) : Prop :=
  ∀ c ∈ db.conversations,
    c.unreadCount1 = unreadVisibleFrom db c.id c.participant2Id ∧
    c.unreadCount2 = unreadVisibleFrom db c.id c.participant1Id

/-- The unread-counter invariant the code actually maintains: each side's
counter equals the number of unread messages from the other side,
regardless of the soft-delete flags (`deleteMessage` never decrements a
counter). -/
def UnreadInv (db : DB) : Prop :=
  ∀ c ∈ db.conversations,
    c.unreadCount1 = unreadFrom db c.id c.participant2Id ∧
    c.unreadCount2 = unreadFrom db c.id c.participant1Id

/-- Database well-formedness used by the counter proofs: conversation ids
are unique (primary key) and the two participants of a conversation are
distinct (enforced at creation). -/
def WF (db : DB) : Prop :=
  (db.conversations.map (fun c => c.id)).Nodup ∧
  ∀ c ∈ db.conversations, c.participant1Id ≠ c.participant2Id

instance (db : DB) : Decidable (StrictUnreadInv db) :=
  inferInstanceAs (Decidable (∀ c ∈ db.conversations,
    c.unreadCount1 = unreadVisibleFrom db c.id c.participant2Id ∧
    c.unreadCount2 = unreadVisibleFrom db c.id c.participant1Id))

instance (db : DB) : Decidable (UnreadInv db) :=
  inferInstanceAs (Decidable (∀ c ∈ db.conversations,
    c.unreadCount1 = unreadFrom db c.id c.participant2Id ∧
    c.unreadCount2 = unreadFrom db c.id c.participant1Id))

instance (db : DB) : Decidable (WF db) :=
  inferInstanceAs
    (Decidable ((db.conversations.map (fun c : Conversation => c.id)).Nodup ∧
      ∀ c ∈ db.conversations, c.participant1Id ≠ c.participant2Id))

/-- The unique index `Conversation_participant1Id_participant2Id_key`: no
two conversation rows share the same ordered participant pair. -/
def ConvKeyNodup (db : DB) : Prop :=
  (db.conversations.map (fun c => (c.participant1Id, c.participant2Id))).Nodup

/-! ### Concrete states used by witnesses and counterexamples -/

/-- Two users who both allow messages. -/
def uA : UserRec := { id := "u1", allowMessages := true }

/-- Second user. -/
def uB : UserRec := { id := "u2", allowMessages := true }

/-- A conversation between `u1` and `u2` with one unread message pending
for `u2`. -/
def convAB : Conversation :=
  { id := "c1", participant1Id := "u1", participant2Id := "u2"
    lastMessageAt := 0, lastMessageText := none
    unreadCount1 := 0, unreadCount2 := 1 }

/-- The corresponding unread message from `u1`. -/
def msgUnread : Message :=
  { id := "m1", conversationId := "c1", senderId := "u1", content := "hi"
    read := false, readAt := none, attachmentUrl := none
    attachmentType := none, deletedAt := none, deletedBySender := false
    deletedByReceiver := false, createdAt := 0 }

/-- Base state: two users, one conversation, one unread message. -/
def dbBase : DB :=
  { users := [uA, uB], conversations := [convAB], messages := [msgUnread]
    notifications := [], events := [], now := 5, nextId := 2
    notificationWriteFails := false }

/-- Same as `dbBase` but the notification store write fails. -/
def dbNotifFail : DB := { dbBase with notificationWriteFails := true }

/-- Two users and no conversation yet. -/
def dbUsersOnly : DB :=
  { users := [uA, uB], conversations := [], messages := [], notifications := []
    events := [], now := 0, nextId := 0, notificationWriteFails := false }

/-- A conversation whose only message is soft-deleted on the receiver's
side: invisible to `u2`, yet still counted by `getMessages`'s `total`. -/
def dbHidden : DB :=
  { dbBase with
      conversations := [{ convAB with unreadCount2 := 0 }]
      messages := [{ msgUnread with deletedByReceiver := true }] }

/-- Three visible messages with increasing `createdAt`, for exercising
pagination. -/
def dbPages : DB :=
  { users := [uA, uB]
    conversations := [{ convAB with unreadCount2 := 0 }]
    messages :=
      [{ msgUnread with id := "m1", createdAt := 1 }
       , { msgUnread with id := "m2", senderId := "u2", createdAt := 2 }
       , { msgUnread with id := "m3", createdAt := 3 }]
    notifications := [], events := [], now := 9, nextId := 9
    notificationWriteFails := false }

/-- The message payload used by witnesses. -/
def dto0 : CreateMessageDto := { content := "hello" }

/-- A registry with no connections. -/
def emptyRegistry : Registry := { userSockets := [], socketUsers := [] }

/-! ## Helper lemmas -/

theorem mapGet_mapSet_self (m : List (String × String)) (k v : String) :
    mapGet (mapSet m k v) k = some v := by
  induction m with
  | nil => simp [mapSet, mapGet, List.find?_cons]
  | cons p t ih =>
    by_cases hp : p.1 = k
    · simp [mapSet, hp, mapGet, List.find?_cons]
    · simpa [mapSet, hp, mapGet, List.find?_cons] using ih

theorem mapGet_mapSet_ne (m : List (String × String)) (k v k' : String)
    (h : k' ≠ k) : mapGet (mapSet m k v) k' = mapGet m k' := by
  induction m with
  | nil => simp [mapSet, mapGet, List.find?_cons, Ne.symm h]
  | cons p t ih =>
    by_cases hp : p.1 = k
    · simp [mapSet, hp, mapGet, List.find?_cons, Ne.symm h]
    · by_cases hp' : p.1 = k'
      · simp [mapSet, hp, mapGet, List.find?_cons, hp', h]
      · simpa [mapSet, hp, mapGet, List.find?_cons, hp'] using ih

theorem mapGet_mapDelete_self (m : List (String × String)) (k : String) :
    mapGet (mapDelete m k) k = none := by
  have h : List.find? (fun p => p.1 == k) (m.filter (fun p => p.1 != k)) = none := by
    rw [List.find?_eq_none]
    intro x hx
    have := (List.mem_filter.mp hx).2
    simp only [bne_iff_ne, ne_eq] at this
    simp [this]
  simp [mapGet, mapDelete, h]

theorem mapHas_mapDelete_self (m : List (String × String)) (k : String) :
    mapHas (mapDelete m k) k = false := by
  rw [mapHas, mapDelete]
  rw [Bool.eq_false_iff]
  intro hany
  rcases List.any_eq_true.mp hany with ⟨x, hx, hpx⟩
  have := (List.mem_filter.mp hx).2
  simp only [bne_iff_ne, ne_eq] at this
  simp [this] at hpx

theorem mapGet_mapDelete_ne (m : List (String × String)) (k k' : String)
    (h : k ≠ k') : mapGet (mapDelete m k') k = mapGet m k := by
  induction m with
  | nil => simp [mapDelete, mapGet]
  | cons p t ih =>
    by_cases hp : p.1 = k'
    · simpa [mapDelete, mapGet, List.filter_cons, List.find?_cons, hp,
        Ne.symm h] using ih
    · by_cases hpk : p.1 = k
      · simp [mapDelete, mapGet, List.filter_cons, List.find?_cons, hp, hpk, h]
      · simpa [mapDelete, mapGet, List.filter_cons, List.find?_cons, hp,
          hpk] using ih

theorem charListLe_total : ∀ (a b : List Char),
    charListLe a b = true ∨ charListLe b a = true := by
  intro a
  induction a with
  | nil => intro b; left; rfl
  | cons x xs ih =>
    intro b
    cases b with
    | nil => right; rfl
    | cons y ys =>
      rcases lt_trichotomy x y with h | h | h
      · left; simp [charListLe, h]
      · subst h
        rcases ih ys with h' | h'
        · left; simp [charListLe, lt_irrefl, h']
        · right; simp [charListLe, lt_irrefl, h']
      · right; simp [charListLe, h]

theorem charListLe_antisymm : ∀ (a b : List Char),
    charListLe a b = true → charListLe b a = true → a = b := by
  intro a
  induction a with
  | nil =>
    intro b h1 h2
    cases b with
    | nil => rfl
    | cons y ys => simp [charListLe] at h2
  | cons x xs ih =>
    intro b h1 h2
    cases b with
    | nil => simp [charListLe] at h1
    | cons y ys =>
      rcases lt_trichotomy x y with h | h | h
      · simp [charListLe, lt_asymm h, h] at h2
      · subst h
        simp only [charListLe, lt_irrefl, if_false] at h1 h2
        rw [ih ys h1 h2]
      · simp [charListLe, lt_asymm h, h] at h1

theorem strLe_total (a b : String) : strLe a b = true ∨ strLe b a = true :=
  charListLe_total a.data b.data

theorem strLe_antisymm {a b : String} (h1 : strLe a b = true)
    (h2 : strLe b a = true) : a = b := by
  have hd := charListLe_antisymm a.data b.data h1 h2
  cases a
  cases b
  exact congrArg String.mk hd

theorem sortPair_comm {a b : String} (h : a ≠ b) :
    sortPair a b = sortPair b a := by
  unfold sortPair
  by_cases hab : strLe a b = true
  · by_cases hba : strLe b a = true
    · exact absurd (strLe_antisymm hab hba) h
    · simp [hab, hba]
  · have hba : strLe b a = true := (strLe_total a b).resolve_left hab
    simp [hab, hba]

theorem sortPair_le (a b : String) :
    strLe (sortPair a b).1 (sortPair a b).2 = true := by
  unfold sortPair
  by_cases h : strLe a b = true
  · simp [h]
  · have := (strLe_total a b).resolve_left h
    simp [h, this]

theorem getConversation_ok_iff {db : DB} {cid uid : String}
    {conv : Conversation} :
    getConversation db cid uid = .ok conv ↔
      db.conversations.find? (fun c => c.id == cid) = some conv ∧
      (conv.participant1Id = uid ∨ conv.participant2Id = uid) := by
  unfold getConversation
  cases h : db.conversations.find? (fun c => c.id == cid) with
  | none => simp
  | some c =>
    dsimp only
    by_cases hp : (c.participant1Id != uid && c.participant2Id != uid) = true
    · rw [if_pos hp]
      simp only [Bool.and_eq_true, bne_iff_ne, ne_eq] at hp
      constructor
      · intro hco
        exact absurd hco (by simp)
      · rintro ⟨hcv, hor⟩
        have hc : c = conv := by injection hcv
        subst hc
        rcases hor with h' | h'
        · exact absurd h' hp.1
        · exact absurd h' hp.2
    · rw [if_neg hp]
      simp only [Bool.and_eq_true, bne_iff_ne, ne_eq, not_and_or,
        not_not] at hp
      constructor
      · intro hok
        have hc : c = conv := by injection hok
        subst hc
        exact ⟨rfl, hp⟩
      · rintro ⟨hcv, _⟩
        have hc : c = conv := by injection hcv
        rw [hc]

theorem find?_map_eq {α : Type} (l : List α) (f : α → α) (p : α → Bool)
    (hp : ∀ x, p (f x) = p x) :
    (l.map f).find? p = (l.find? p).map f := by
  induction l with
  | nil => rfl
  | cons x t ih =>
    cases hx : p x with
    | true => simp [List.find?_cons, hp, hx]
    | false => simp [List.find?_cons, hp, hx, ih]

theorem zeroCounterFn_id (cid : String) (b : Bool) (c : Conversation) :
    (zeroCounterFn cid b c).id = c.id := by
  unfold zeroCounterFn
  by_cases h : (c.id == cid) = true
  · cases b <;> simp [h]
  · simp [h]

theorem zeroCounterFn_participant1 (cid : String) (b : Bool)
    (c : Conversation) : (zeroCounterFn cid b c).participant1Id = c.participant1Id := by
  unfold zeroCounterFn
  by_cases h : (c.id == cid) = true
  · cases b <;> simp [h]
  · simp [h]

theorem zeroCounterFn_participant2 (cid : String) (b : Bool)
    (c : Conversation) : (zeroCounterFn cid b c).participant2Id = c.participant2Id := by
  unfold zeroCounterFn
  by_cases h : (c.id == cid) = true
  · cases b <;> simp [h]
  · simp [h]

theorem zeroCounterFn_idem (cid : String) (b : Bool) (c : Conversation) :
    zeroCounterFn cid b (zeroCounterFn cid b c) = zeroCounterFn cid b c := by
  unfold zeroCounterFn
  by_cases h : (c.id == cid) = true
  · cases b <;> simp [h]
  · simp [h]

theorem markReadFn_idem (cid other : String) (now : Nat) (m : Message) :
    markReadFn cid other now (markReadFn cid other now m) =
      markReadFn cid other now m := by
  by_cases h : (m.conversationId == cid && m.senderId == other && m.read == false) = true
  · have h1 : markReadFn cid other now m = { m with read := true, readAt := some now } := by
      unfold markReadFn
      rw [if_pos h]
    rw [h1]
    unfold markReadFn
    simp
  · have h1 : markReadFn cid other now m = m := by
      unfold markReadFn
      rw [if_neg h]
    rw [h1, h1]

theorem touchFn_id (cid : String) (b : Bool) (s : String) (n : Nat)
    (c : Conversation) : (touchFn cid b s n c).id = c.id := by
  unfold touchFn
  by_cases h : (c.id == cid) = true <;> simp [h]

theorem touchFn_participant1 (cid : String) (b : Bool) (s : String) (n : Nat)
    (c : Conversation) : (touchFn cid b s n c).participant1Id = c.participant1Id := by
  unfold touchFn
  by_cases h : (c.id == cid) = true <;> simp [h]

theorem touchFn_participant2 (cid : String) (b : Bool) (s : String) (n : Nat)
    (c : Conversation) : (touchFn cid b s n c).participant2Id = c.participant2Id := by
  unfold touchFn
  by_cases h : (c.id == cid) = true <;> simp [h]

theorem touchFn_eq_self (cid : String) (b : Bool) (s : String) (n : Nat)
    (c : Conversation) (h : (c.id == cid) = false) : touchFn cid b s n c = c := by
  unfold touchFn
  rw [if_neg (by simp [h])]

theorem touchFn_unreadCount1 (cid : String) (b : Bool) (s : String) (n : Nat)
    (c : Conversation) (h : (c.id == cid) = true) :
    (touchFn cid b s n c).unreadCount1 =
      if b then c.unreadCount1 else c.unreadCount1 + 1 := by
  unfold touchFn
  rw [if_pos h]

theorem touchFn_unreadCount2 (cid : String) (b : Bool) (s : String) (n : Nat)
    (c : Conversation) (h : (c.id == cid) = true) :
    (touchFn cid b s n c).unreadCount2 =
      if b then c.unreadCount2 + 1 else c.unreadCount2 := by
  unfold touchFn
  rw [if_pos h]

theorem zeroCounterFn_eq_self (cid : String) (b : Bool) (c : Conversation)
    (h : (c.id == cid) = false) : zeroCounterFn cid b c = c := by
  unfold zeroCounterFn
  rw [if_neg (by simp [h])]

theorem zeroCounterFn_unreadCount1 (cid : String) (b : Bool) (c : Conversation)
    (h : (c.id == cid) = true) :
    (zeroCounterFn cid b c).unreadCount1 = if b then 0 else c.unreadCount1 := by
  unfold zeroCounterFn
  rw [if_pos h]
  cases b <;> simp

theorem zeroCounterFn_unreadCount2 (cid : String) (b : Bool) (c : Conversation)
    (h : (c.id == cid) = true) :
    (zeroCounterFn cid b c).unreadCount2 = if b then c.unreadCount2 else 0 := by
  unfold zeroCounterFn
  rw [if_pos h]
  cases b <;> simp

theorem markReadFn_pos (cid other : String) (now : Nat) (m : Message)
    (h : (m.conversationId == cid && m.senderId == other && m.read == false) = true) :
    markReadFn cid other now m = { m with read := true, readAt := some now } := by
  unfold markReadFn
  rw [if_pos h]

theorem markReadFn_neg (cid other : String) (now : Nat) (m : Message)
    (h : (m.conversationId == cid && m.senderId == other && m.read == false) = false) :
    markReadFn cid other now m = m := by
  unfold markReadFn
  rw [if_neg (by rw [h]; exact Bool.false_ne_true)]

theorem sendMessage_err {db : DB} {cid sid : String} {e : Err}
    (dto : CreateMessageDto) (h : getConversation db cid sid = .error e) :
    sendMessage db cid sid dto = (db, .error e) := by
  unfold sendMessage
  rw [h]

theorem sendMessage_run_components {db : DB} {cid sid : String}
    {conversation : Conversation} (dto : CreateMessageDto)
    (hok : getConversation db cid sid = .ok conversation) :
    (sendMessage db cid sid dto).1.messages =
      db.messages ++ [mkMessage db cid sid dto] ∧
    (sendMessage db cid sid dto).1.conversations =
      db.conversations.map
        (touchFn cid (sid == conversation.participant1Id) dto.content db.now) := by
  unfold sendMessage
  rw [hok]
  cases h : db.notificationWriteFails <;>
    simp [appendStep, touchStep, notifyStep, emitStep]

theorem markMessagesAsRead_err {db : DB} {cid uid : String} {e : Err}
    (h : getConversation db cid uid = .error e) :
    markMessagesAsRead db cid uid = (db, .error e) := by
  unfold markMessagesAsRead
  rw [h]

/-- Mapping the message table with a function that preserves the
conversation, sender and read flag preserves the unread-counter
invariant. -/
theorem unreadInv_map_messages (db : DB) (hinv : UnreadInv db)
    (f : Message → Message)
    (hf : ∀ m, (f m).conversationId = m.conversationId ∧
      (f m).senderId = m.senderId ∧ (f m).read = m.read) :
    UnreadInv { db with messages := db.messages.map f } := by
  intro c hc
  obtain ⟨h1, h2⟩ := hinv c hc
  have hcnt : ∀ s : String,
      List.countP (fun m => m.conversationId == c.id && m.senderId == s && m.read == false)
        (db.messages.map f) =
      List.countP (fun m => m.conversationId == c.id && m.senderId == s && m.read == false)
        db.messages := by
    intro s
    rw [List.countP_map]
    apply List.countP_congr
    intro m _
    simp only [Function.comp_apply, (hf m).1, (hf m).2.1, (hf m).2.2]
  constructor
  · rw [h1]
    unfold unreadFrom
    exact (hcnt c.participant2Id).symm
  · rw [h2]
    unfold unreadFrom
    exact (hcnt c.participant1Id).symm

theorem markMessagesAsRead_run {db : DB} {cid uid : String}
    {conv : Conversation} (h : getConversation db cid uid = .ok conv) :
    markMessagesAsRead db cid uid =
      ({ db with
          conversations :=
            db.conversations.map (zeroCounterFn cid (uid == conv.participant1Id))
          messages :=
            db.messages.map (markReadFn cid
              (if uid == conv.participant1Id then conv.participant2Id
               else conv.participant1Id) db.now)
          events := db.events ++
            [.messageRead
              (if uid == conv.participant1Id then conv.participant2Id
               else conv.participant1Id) cid] },
       .ok ()) := by
  unfold markMessagesAsRead
  rw [h]
  rfl

theorem countP_map_markReadFn_self (cid other : String) (now : Nat)
    (l : List Message) :
    List.countP
      (fun m => m.conversationId == cid && m.senderId == other && m.read == false)
      (l.map (markReadFn cid other now)) = 0 := by
  rw [List.countP_map, List.countP_eq_zero]
  intro m _
  simp only [Function.comp_apply]
  by_cases hcm : (m.conversationId == cid && m.senderId == other && m.read == false) = true
  · rw [markReadFn_pos _ _ _ _ hcm]
    simp
  · rw [markReadFn_neg _ _ _ _ (by simpa using hcm)]
    simpa using hcm

theorem countP_map_markReadFn_preserved (cid other : String) (now : Nat)
    (l : List Message) (x y : String) (hne : x ≠ cid ∨ y ≠ other) :
    List.countP
      (fun m => m.conversationId == x && m.senderId == y && m.read == false)
      (l.map (markReadFn cid other now)) =
    List.countP
      (fun m => m.conversationId == x && m.senderId == y && m.read == false)
      l := by
  rw [List.countP_map]
  apply List.countP_congr
  intro m _
  simp only [Function.comp_apply]
  by_cases hcm : (m.conversationId == cid && m.senderId == other && m.read == false) = true
  · have hmc : m.conversationId = cid ∧ m.senderId = other ∧ m.read = false := by
      simpa [and_assoc] using hcm
    rw [markReadFn_pos _ _ _ _ hcm]
    constructor
    · intro hcontra
      simp at hcontra
    · intro hcontra
      simp only [Bool.and_eq_true, beq_iff_eq] at hcontra
      rcases hne with hne | hne
      · exact absurd (hcontra.1.1.symm.trans hmc.1) hne
      · exact absurd (hcontra.1.2.symm.trans hmc.2.1) hne
  · rw [markReadFn_neg _ _ _ _ (by simpa using hcm)]

theorem exists_chunk {α : Type} (k : Nat) (hk : 0 < k) :
    ∀ (n : Nat) (l : List α) (x : α), l.length ≤ n → x ∈ l →
      ∃ p, x ∈ (l.drop (p * k)).take k := by
  intro n
  induction n with
  | zero =>
    intro l x hlen hx
    cases l with
    | nil => simp at hx
    | cons a t => simp at hlen
  | succ n ih =>
    intro l x hlen hx
    by_cases hxt : x ∈ l.take k
    · exact ⟨0, by simpa using hxt⟩
    · have hxd : x ∈ l.drop k := by
        have hsplit := List.take_append_drop k l
        have hx2 : x ∈ l.take k ++ l.drop k := by rw [hsplit]; exact hx
        rcases List.mem_append.mp hx2 with h | h
        · exact absurd h hxt
        · exact h
      have hlen2 : (l.drop k).length ≤ n := by
        rw [List.length_drop]
        omega
      rcases ih (l.drop k) x hlen2 hxd with ⟨p, hp⟩
      refine ⟨p + 1, ?_⟩
      rw [List.drop_drop] at hp
      have hmul : (p + 1) * k = k + p * k := by ring
      rw [hmul]
      exact hp

/-! ## Claim C1 -/

/-- Claim C1 fails on the code: on a state satisfying the strict
invariant (counters match unread messages that are not soft-deleted for
the counter's owner), a receiver-side soft delete of an unread message
succeeds but decrements no counter, so the strict invariant no longer
holds afterwards. -/
theorem c1_strict_unread_invariant_counterexample :
    StrictUnreadInv dbBase ∧
    (deleteMessage dbBase "m1" "u2" .receiver).2 = .ok () ∧
    ¬ StrictUnreadInv (deleteMessage dbBase "m1" "u2" .receiver).1 := by
  decide

set_option maxRecDepth 4000 in
/-- Claim C1 (amended): on well-formed states the counters match the
number of unread messages from the other participant counted regardless
of the soft-delete flags, and that invariant is preserved by
`sendMessage`, `markMessagesAsRead` and `deleteMessage` (on both their
success and failure paths). -/
theorem c1_unread_invariant_preserved (db : DB) (hwf : WF db)
    (hinv : UnreadInv db) :
    (∀ (cid sid : String) (dto : CreateMessageDto),
        UnreadInv (sendMessage db cid sid dto).1) ∧
    (∀ cid uid : String, UnreadInv (markMessagesAsRead db cid uid).1) ∧
    (∀ (mid uid : String) (scope : DeleteScope),
        UnreadInv (deleteMessage db mid uid scope).1) := by
  obtain ⟨hnodup, hpair⟩ := hwf
  refine ⟨?_, ?_, ?_⟩
  · -- sendMessage
    intro cid sid dto
    cases hok : getConversation db cid sid with
    | error e =>
      rw [sendMessage_err dto hok]
      exact hinv
    | ok conversation =>
      obtain ⟨hfind, hpart⟩ := getConversation_ok_iff.mp hok
      have hmem := List.mem_of_find?_eq_some hfind
      have hcid : conversation.id = cid := by simpa using List.find?_some hfind
      obtain ⟨hmsgs, hconvs⟩ := sendMessage_run_components dto hok
      have hppair := hpair conversation hmem
      intro c' hc'
      rw [hconvs] at hc'
      rcases List.mem_map.mp hc' with ⟨c0, hc0, rfl⟩
      obtain ⟨h01, h02⟩ := hinv c0 hc0
      unfold unreadFrom at h01 h02
      by_cases h0 : (c0.id == cid) = true
      · have hc0eq : c0 = conversation :=
          List.inj_on_of_nodup_map hnodup hc0 hmem
            (by rw [show c0.id = cid from by simpa using h0, hcid])
        subst hc0eq
        constructor
        · rw [touchFn_unreadCount1 _ _ _ _ _ h0]
          simp only [touchFn_id, touchFn_participant2]
          unfold unreadFrom
          rw [hmsgs, List.countP_append]
          by_cases hb : (sid == c0.participant1Id) = true
          · have hsid : sid = c0.participant1Id := by simpa using hb
            rw [if_pos hb]
            have hz : List.countP
                (fun m => m.conversationId == c0.id && m.senderId == c0.participant2Id && m.read == false)
                [mkMessage db cid sid dto] = 0 := by
              simp [List.countP_cons, mkMessage, hsid, hppair]
            rw [hz, Nat.add_zero]
            exact h01
          · have hsid : sid = c0.participant2Id := by
              have hnot : sid ≠ c0.participant1Id := by simpa using hb
              rcases hpart with h | h
              · exact absurd h.symm hnot
              · exact h.symm
            rw [if_neg hb]
            have hone : List.countP
                (fun m => m.conversationId == c0.id && m.senderId == c0.participant2Id && m.read == false)
                [mkMessage db cid sid dto] = 1 := by
              simp [List.countP_cons, mkMessage, hsid, hcid]
            rw [hone, h01]
        · rw [touchFn_unreadCount2 _ _ _ _ _ h0]
          simp only [touchFn_id, touchFn_participant1]
          unfold unreadFrom
          rw [hmsgs, List.countP_append]
          by_cases hb : (sid == c0.participant1Id) = true
          · have hsid : sid = c0.participant1Id := by simpa using hb
            rw [if_pos hb]
            have hone : List.countP
                (fun m => m.conversationId == c0.id && m.senderId == c0.participant1Id && m.read == false)
                [mkMessage db cid sid dto] = 1 := by
              simp [List.countP_cons, mkMessage, hsid, hcid]
            rw [hone, h02]
          · rw [if_neg hb]
            have hz : List.countP
                (fun m => m.conversationId == c0.id && m.senderId == c0.participant1Id && m.read == false)
                [mkMessage db cid sid dto] = 0 := by
              simp [List.countP_cons, mkMessage, hb]
            rw [hz, Nat.add_zero]
            exact h02
      · have h0f : (c0.id == cid) = false := by simpa using h0
        have hneq : c0.id ≠ cid := by simpa using h0f
        rw [touchFn_eq_self _ _ _ _ _ h0f]
        constructor
        · unfold unreadFrom
          rw [hmsgs, List.countP_append]
          have hz : List.countP
              (fun m => m.conversationId == c0.id && m.senderId == c0.participant2Id && m.read == false)
              [mkMessage db cid sid dto] = 0 := by
            simp [List.countP_cons, mkMessage, Ne.symm hneq]
          rw [hz, Nat.add_zero]
          exact h01
        · unfold unreadFrom
          rw [hmsgs, List.countP_append]
          have hz : List.countP
              (fun m => m.conversationId == c0.id && m.senderId == c0.participant1Id && m.read == false)
              [mkMessage db cid sid dto] = 0 := by
            simp [List.countP_cons, mkMessage, Ne.symm hneq]
          rw [hz, Nat.add_zero]
          exact h02
  · -- markMessagesAsRead
    intro cid uid
    cases hok : getConversation db cid uid with
    | error e =>
      rw [markMessagesAsRead_err hok]
      exact hinv
    | ok conversation =>
      obtain ⟨hfind, hpart⟩ := getConversation_ok_iff.mp hok
      have hmem := List.mem_of_find?_eq_some hfind
      have hcid : conversation.id = cid := by simpa using List.find?_some hfind
      have hppair := hpair conversation hmem
      have hrun := markMessagesAsRead_run hok
      intro c' hc'
      rw [hrun] at hc'
      dsimp only at hc'
      rcases List.mem_map.mp hc' with ⟨c0, hc0, rfl⟩
      obtain ⟨h01, h02⟩ := hinv c0 hc0
      unfold unreadFrom at h01 h02
      rw [hrun]
      unfold unreadFrom
      dsimp only
      simp only [zeroCounterFn_id, zeroCounterFn_participant1,
        zeroCounterFn_participant2]
      by_cases h0 : (c0.id == cid) = true
      · have hcideq : c0.id = cid := by simpa using h0
        have hc0eq : c0 = conversation :=
          List.inj_on_of_nodup_map hnodup hc0 hmem (by rw [hcideq, hcid])
        subst hc0eq
        by_cases hu : (uid == c0.participant1Id) = true
        · have hother : (if (uid == c0.participant1Id) = true
              then c0.participant2Id else c0.participant1Id) = c0.participant2Id :=
            if_pos hu
          constructor
          · rw [zeroCounterFn_unreadCount1 _ _ _ h0, if_pos hu, hother]
            simp only [hcideq]
            exact (countP_map_markReadFn_self cid c0.participant2Id db.now
              db.messages).symm
          · rw [zeroCounterFn_unreadCount2 _ _ _ h0, if_pos hu, hother]
            simp only [hcideq]
            rw [countP_map_markReadFn_preserved cid c0.participant2Id db.now
              db.messages cid c0.participant1Id (Or.inr hppair)]
            simp only [hcideq] at h02
            exact h02
        · have hother : (if (uid == c0.participant1Id) = true
              then c0.participant2Id else c0.participant1Id) = c0.participant1Id :=
            if_neg hu
          constructor
          · rw [zeroCounterFn_unreadCount1 _ _ _ h0, if_neg hu, hother]
            simp only [hcideq]
            rw [countP_map_markReadFn_preserved cid c0.participant1Id db.now
              db.messages cid c0.participant2Id (Or.inr (Ne.symm hppair))]
            simp only [hcideq] at h01
            exact h01
          · rw [zeroCounterFn_unreadCount2 _ _ _ h0, if_neg hu, hother]
            simp only [hcideq]
            exact (countP_map_markReadFn_self cid c0.participant1Id db.now
              db.messages).symm
      · have h0f : (c0.id == cid) = false := by simpa using h0
        have hneq : c0.id ≠ cid := by simpa using h0f
        rw [zeroCounterFn_eq_self _ _ _ h0f]
        constructor
        · rw [countP_map_markReadFn_preserved _ _ _ _ _ _ (Or.inl hneq)]
          exact h01
        · rw [countP_map_markReadFn_preserved _ _ _ _ _ _ (Or.inl hneq)]
          exact h02
  · -- deleteMessage
    intro mid uid scope
    unfold deleteMessage
    cases hfm : db.messages.find? (fun m => m.id == mid) with
    | none => exact hinv
    | some msg =>
      dsimp only
      cases hfc : db.conversations.find? (fun c => c.id == msg.conversationId) with
      | none => exact hinv
      | some conv =>
        dsimp only
        by_cases hp : (conv.participant1Id != uid && conv.participant2Id != uid) = true
        · rw [if_pos hp]
          exact hinv
        · rw [if_neg hp]
          by_cases hb : (scope == DeleteScope.both) = true
          · rw [if_pos hb]
            exact unreadInv_map_messages db hinv _ (fun m => by
              by_cases h : (m.id == mid) = true <;> simp [h])
          · rw [if_neg hb]
            by_cases hs : (scope == DeleteScope.sender && (msg.senderId == uid)) = true
            · rw [if_pos hs]
              exact unreadInv_map_messages db hinv _ (fun m => by
                by_cases h : (m.id == mid) = true <;> simp [h])
            · rw [if_neg hs]
              by_cases hr : (scope == DeleteScope.receiver && !(msg.senderId == uid)) = true
              · rw [if_pos hr]
                exact unreadInv_map_messages db hinv _ (fun m => by
                  by_cases h : (m.id == mid) = true <;> simp [h])
              · rw [if_neg hr]
                exact hinv

/-- Witness for `c1_unread_invariant_preserved`: the base state is
well-formed and satisfies the invariant; sending another message from
`u1` preserves it. -/
theorem c1_unread_invariant_preserved_witness :
    UnreadInv (sendMessage dbBase "c1" "u1" dto0).1 :=
  (c1_unread_invariant_preserved dbBase (by decide) (by decide)).1 "c1" "u1" dto0

/-! ## Claim C2 -/

/-- Claim C2: whenever both orientations of `getOrCreateConversation`
succeed on the same state, they return the same conversation row and
leave identical states: the pair is canonicalised with the
lexicographically smaller id as `participant1Id`, so both calls address
one row; and the unique participant-pair key (`ConvKeyNodup`, the
database's unique index) is preserved, so at most one row exists per
unordered pair. -/
theorem c2_getOrCreateConversation_symmetric (db : DB) (u1 u2 : String)
    (db1 db2 : DB) (c1 c2 : Conversation)
    (hkey : ConvKeyNodup db)
    (h1 : getOrCreateConversation db u1 u2 = (db1, .ok c1))
    (h2 : getOrCreateConversation db u2 u1 = (db2, .ok c2)) :
    c1 = c2 ∧ db1 = db2 ∧
    c1.participant1Id = (sortPair u1 u2).1 ∧
    c1.participant2Id = (sortPair u1 u2).2 ∧
    strLe c1.participant1Id c1.participant2Id = true ∧
    ConvKeyNodup db1 := by
  have hne : u1 ≠ u2 := by
    intro he
    unfold getOrCreateConversation at h1
    simp [he] at h1
  have hne' : u2 ≠ u1 := Ne.symm hne
  unfold getOrCreateConversation at h1 h2
  rw [if_neg (by simp [hne])] at h1
  rw [if_neg (by simp [hne'])] at h2
  cases hfu2 : db.users.find? (fun u => u.id == u2) with
  | none => rw [hfu2] at h1; simp at h1
  | some tu2 =>
  rw [hfu2] at h1
  cases hfu1 : db.users.find? (fun u => u.id == u1) with
  | none => rw [hfu1] at h2; simp at h2
  | some tu1 =>
  rw [hfu1] at h2
  dsimp only at h1 h2
  cases hal2 : tu2.allowMessages with
  | false => rw [hal2] at h1; simp at h1
  | true =>
  rw [hal2] at h1
  cases hal1 : tu1.allowMessages with
  | false => rw [hal1] at h2; simp at h2
  | true =>
  rw [hal1] at h2
  simp only [Bool.not_true, if_false, Bool.false_eq_true] at h1 h2
  rw [sortPair_comm hne'] at h2
  cases hfc : db.conversations.find? (fun c =>
      c.participant1Id == (sortPair u1 u2).1 &&
        c.participant2Id == (sortPair u1 u2).2) with
  | some conv =>
    rw [hfc] at h1 h2
    simp only [Prod.mk.injEq, Except.ok.injEq] at h1 h2
    obtain ⟨hdb1, hc1⟩ := h1
    obtain ⟨hdb2, hc2⟩ := h2
    have hp := List.find?_some hfc
    simp only [Bool.and_eq_true, beq_iff_eq] at hp
    subst hc1
    subst hc2
    subst hdb1
    subst hdb2
    exact ⟨rfl, rfl, hp.1, hp.2, by rw [hp.1, hp.2]; exact sortPair_le u1 u2, hkey⟩
  | none =>
    rw [hfc] at h1 h2
    simp only [Prod.mk.injEq, Except.ok.injEq] at h1 h2
    obtain ⟨hdb1, hc1⟩ := h1
    obtain ⟨hdb2, hc2⟩ := h2
    subst hc1
    subst hc2
    subst hdb1
    subst hdb2
    refine ⟨rfl, rfl, rfl, rfl, sortPair_le u1 u2, ?_⟩
    have hnotin : ∀ c ∈ db.conversations,
        ¬(c.participant1Id = (sortPair u1 u2).1 ∧
          c.participant2Id = (sortPair u1 u2).2) := by
      intro c hc hcontra
      have := List.find?_eq_none.mp hfc c hc
      simp [hcontra.1, hcontra.2] at this
    unfold ConvKeyNodup at hkey ⊢
    simp only [List.map_append, List.map_cons, List.map_nil]
    rw [List.nodup_append]
    refine ⟨hkey, List.nodup_singleton _, ?_⟩
    intro x hx hx'
    rcases List.mem_map.mp hx with ⟨c, hc, hxc⟩
    simp only [List.mem_singleton] at hx'
    rw [hx'] at hxc
    have : c.participant1Id = (sortPair u1 u2).1 ∧
        c.participant2Id = (sortPair u1 u2).2 := by
      have := Prod.mk.injEq .. ▸ hxc
      exact ⟨congrArg Prod.fst hxc, congrArg Prod.snd hxc⟩
    exact hnotin c hc this

/-- Witness for `c2_getOrCreateConversation_symmetric`: both orientations
on the two-user state with no prior conversation. -/
theorem c2_getOrCreateConversation_symmetric_witness :
    ConvKeyNodup (getOrCreateConversation dbUsersOnly "u1" "u2").1 :=
  (c2_getOrCreateConversation_symmetric dbUsersOnly "u1" "u2"
    (getOrCreateConversation dbUsersOnly "u1" "u2").1
    (getOrCreateConversation dbUsersOnly "u2" "u1").1
    { id := "c0", participant1Id := "u1", participant2Id := "u2"
      lastMessageAt := 0, lastMessageText := none
      unreadCount1 := 0, unreadCount2 := 0 }
    { id := "c0", participant1Id := "u1", participant2Id := "u2"
      lastMessageAt := 0, lastMessageText := none
      unreadCount1 := 0, unreadCount2 := 0 }
    (by simp [ConvKeyNodup, dbUsersOnly]) (by decide) (by decide)).2.2.2.2.2

/-! ## Claim C4 -/

/-- Claim C4 fails on the code: after `bind(u, s1)` then `bind(u, s2)`, a
disconnect of the stale socket `s1` looks `u` up through the surviving
reverse entry `s1 ↦ u` and deletes `u`'s forward entry outright, so `u`
goes offline even though `s2` is still connected — the claim asserted
`isOnline(u)` stays true and `connectionOf(u) = s2`. -/
theorem c4_stale_unbind_counterexample :
    isUserOnline
      (unbindConn (bindConn (bindConn emptyRegistry "u" "s1") "u" "s2") "s1") "u" = false ∧
    connectionOf
      (unbindConn (bindConn (bindConn emptyRegistry "u" "s1") "u" "s2") "s1") "u" = none := by
  decide

/-- Claim C4 (amended): binding is last-connection-wins on the forward
map, but the reverse entry of the replaced connection survives; a later
`unbind` of that stale connection therefore removes the user's forward
binding entirely, taking the user offline while the fresh reverse entry
remains; `unbind` of an unknown connection is a no-op. -/
theorem c4_stale_unbind_behavior (r : Registry) (u c1 c2 : String)
    (hne : c1 ≠ c2) :
    connectionOf (bindConn (bindConn r u c1) u c2) u = some c2 ∧
    mapGet (bindConn (bindConn r u c1) u c2).socketUsers c1 = some u ∧
    isUserOnline (unbindConn (bindConn (bindConn r u c1) u c2) c1) u = false ∧
    connectionOf (unbindConn (bindConn (bindConn r u c1) u c2) c1) u = none ∧
    mapGet (unbindConn (bindConn (bindConn r u c1) u c2) c1).socketUsers c2 = some u ∧
    ∀ (s : Registry) (c : String), mapGet s.socketUsers c = none → unbindConn s c = s := by
  have hrev1 : mapGet (bindConn (bindConn r u c1) u c2).socketUsers c1 = some u := by
    show mapGet (mapSet (mapSet r.socketUsers c1 u) c2 u) c1 = some u
    rw [mapGet_mapSet_ne _ _ _ _ hne, mapGet_mapSet_self]
  have hrev2 : mapGet (bindConn (bindConn r u c1) u c2).socketUsers c2 = some u := by
    show mapGet (mapSet (mapSet r.socketUsers c1 u) c2 u) c2 = some u
    rw [mapGet_mapSet_self]
  have hunb : unbindConn (bindConn (bindConn r u c1) u c2) c1 =
      { userSockets := mapDelete (bindConn (bindConn r u c1) u c2).userSockets u
        socketUsers := mapDelete (bindConn (bindConn r u c1) u c2).socketUsers c1 } := by
    unfold unbindConn
    rw [hrev1]
  refine ⟨?_, hrev1, ?_, ?_, ?_, ?_⟩
  · show mapGet (mapSet (mapSet r.userSockets u c1) u c2) u = some c2
    rw [mapGet_mapSet_self]
  · rw [hunb]
    exact mapHas_mapDelete_self _ _
  · rw [hunb]
    exact mapGet_mapDelete_self _ _
  · rw [hunb]
    show mapGet (mapDelete (bindConn (bindConn r u c1) u c2).socketUsers c1) c2 = some u
    rw [mapGet_mapDelete_ne _ _ _ (Ne.symm hne), hrev2]
  · intro s c h
    unfold unbindConn
    rw [h]

/-- Witness for `c4_stale_unbind_behavior` at the empty registry with
user `u` and sockets `s1`, `s2`. -/
theorem c4_stale_unbind_behavior_witness :
    mapGet (unbindConn (bindConn (bindConn emptyRegistry "u" "s1") "u" "s2") "s1").socketUsers
      "s2" = some "u" :=
  (c4_stale_unbind_behavior emptyRegistry "u" "s1" "s2" (by decide)).2.2.2.2.1

/-! ## Claim C3 -/

/-- Claim C3 fails on the code: `sendMessage` awaits
`createMessageNotification` with no try/catch anywhere on the path, so a
failing notification write propagates out of `sendMessage` — the call
does not complete successfully and does not return the message, even
though the message row was already persisted. -/
theorem c3_notification_failure_counterexample :
    (sendMessage dbNotifFail "c1" "u1" dto0).2 = .error .internal ∧
    (sendMessage dbNotifFail "c1" "u1" dto0).2 ≠
      .ok (mkMessage dbNotifFail "c1" "u1" dto0) ∧
    mkMessage dbNotifFail "c1" "u1" dto0 ∈
      (sendMessage dbNotifFail "c1" "u1" dto0).1.messages := by
  decide

/-- Claim C3 (amended): when the notification store write fails during
`sendMessage` (after the message has been persisted), the failure
propagates to the caller as the result of the send; the message row and
the conversation touch remain committed, but no WebSocket emit happens
and no notification row is written. -/
theorem c3_notification_failure_propagates (db : DB) (cid sid : String)
    (dto : CreateMessageDto) (conversation : Conversation)
    (hok : getConversation db cid sid = .ok conversation)
    (hfail : db.notificationWriteFails = true) :
    sendMessage db cid sid dto =
      (touchStep (appendStep db (mkMessage db cid sid dto)) cid
        (sid == conversation.participant1Id) dto.content db.now,
       .error .internal) ∧
    mkMessage db cid sid dto ∈ (sendMessage db cid sid dto).1.messages ∧
    (sendMessage db cid sid dto).1.events = db.events ∧
    (sendMessage db cid sid dto).1.notifications = db.notifications := by
  have hsend : sendMessage db cid sid dto =
      (touchStep (appendStep db (mkMessage db cid sid dto)) cid
        (sid == conversation.participant1Id) dto.content db.now,
       .error .internal) := by
    unfold sendMessage
    rw [hok]
    simp [hfail]
  refine ⟨hsend, ?_, ?_, ?_⟩ <;> rw [hsend] <;> simp [touchStep, appendStep]

/-- Witness for `c3_notification_failure_propagates` on the base state
with a failing notification store. -/
theorem c3_notification_failure_propagates_witness :
    mkMessage dbNotifFail "c1" "u1" dto0 ∈
      (sendMessage dbNotifFail "c1" "u1" dto0).1.messages ∧
    (sendMessage dbNotifFail "c1" "u1" dto0).1.events = dbNotifFail.events :=
  ⟨(c3_notification_failure_propagates dbNotifFail "c1" "u1" dto0 convAB
      (by decide) rfl).2.1,
   (c3_notification_failure_propagates dbNotifFail "c1" "u1" dto0 convAB
      (by decide) rfl).2.2.1⟩

/-! ## Claim C5 -/

/-- Claim C5: `sendMessage` persists the message row first
(`appendStep` leaves the conversation table untouched), and the final
state updates only the matching conversation row — setting
`lastMessageText` to the first 100 characters of the content and
`lastMessageAt`, incrementing exactly the receiving participant's unread
counter by one, and leaving the sender's own counter unchanged. -/
theorem c5_sendMessage_append_before_touch (db : DB) (cid sid : String)
    (dto : CreateMessageDto) (conversation : Conversation)
    (hok : getConversation db cid sid = .ok conversation) :
    (appendStep db (mkMessage db cid sid dto)).messages =
      db.messages ++ [mkMessage db cid sid dto] ∧
    (appendStep db (mkMessage db cid sid dto)).conversations = db.conversations ∧
    (sendMessage db cid sid dto).1.messages =
      db.messages ++ [mkMessage db cid sid dto] ∧
    (sendMessage db cid sid dto).1.conversations =
      db.conversations.map (fun c =>
        if c.id == cid then
          { c with
              lastMessageAt := db.now
              lastMessageText := some (dto.content.take 100)
              unreadCount1 :=
                if sid == conversation.participant1Id then c.unreadCount1
                else c.unreadCount1 + 1
              unreadCount2 :=
                if sid == conversation.participant1Id then c.unreadCount2 + 1
                else c.unreadCount2 }
        else c) := by
  refine ⟨rfl, rfl, ?_, ?_⟩ <;>
  · unfold sendMessage
    rw [hok]
    cases hnf : db.notificationWriteFails <;>
      simp [appendStep, touchStep, touchFn, notifyStep, emitStep]

/-- Witness for `c5_sendMessage_append_before_touch` on the base state. -/
theorem c5_sendMessage_append_before_touch_witness :
    (sendMessage dbBase "c1" "u1" dto0).1.messages =
      dbBase.messages ++ [mkMessage dbBase "c1" "u1" dto0] :=
  (c5_sendMessage_append_before_touch dbBase "c1" "u1" dto0 convAB (by decide)).2.2.1

theorem getMessages_run {db : DB} {cid uid : String} {conv : Conversation}
    (h : getConversation db cid uid = .ok conv) (page limit : Nat) :
    getMessages db cid uid page limit =
      .ok (pageOf db cid uid page limit,
        { page := page
          limit := limit
          total := totalOf db cid
          totalPages := ceilDiv (totalOf db cid) limit
          hasNext := decide (page < ceilDiv (totalOf db cid) limit)
          hasPrevious := decide (1 < page) }) := by
  unfold getMessages
  rw [h]
  rfl

theorem getMessages_ok_conv {db : DB} {cid uid : String}
    {page limit : Nat} {r : List Message × PageMeta}
    (h : getMessages db cid uid page limit = .ok r) :
    ∃ conv, getConversation db cid uid = .ok conv := by
  unfold getMessages at h
  cases hg : getConversation db cid uid with
  | error e => rw [hg] at h; simp at h
  | ok c => exact ⟨c, rfl⟩

theorem countP_split {α : Type} (l : List α) (p q : α → Bool) :
    l.countP p =
      l.countP (fun a => p a && q a) + l.countP (fun a => p a && !q a) := by
  induction l with
  | nil => rfl
  | cons x t ih =>
    rw [List.countP_cons, List.countP_cons, List.countP_cons]
    cases hp : p x <;> cases hq : q x <;> simp [hp, hq, ih] <;> omega

theorem countedInTotal_and_visibleTo (cid uid : String) (m : Message) :
    (countedInTotal cid m && visibleTo cid uid m) = visibleTo cid uid m := by
  unfold countedInTotal visibleTo
  cases h1 : (m.conversationId == cid) <;>
    cases h2 : m.deletedAt.isNone <;> simp [h1, h2]

/-! ## Claim C6 -/

/-- Claim C6: `markMessagesAsRead` succeeds for a participant, zeroes the
reader's unread counter on the conversation row, sets `read = true` with a
`readAt` timestamp on every message authored by the other participant that
was unread, leaves every other message record unchanged, and a second
immediate `markMessagesAsRead` is idempotent: it succeeds, the counter
stays 0 and no conversation or message record changes. -/
theorem c6_markMessagesAsRead_correct_and_idempotent (db : DB)
    (cid uid : String) (conversation : Conversation)
    (hok : getConversation db cid uid = .ok conversation) :
    (markMessagesAsRead db cid uid).2 = .ok () ∧
    (∀ c ∈ (markMessagesAsRead db cid uid).1.conversations, c.id = cid →
      (if uid == conversation.participant1Id then c.unreadCount1 = 0
       else c.unreadCount2 = 0)) ∧
    (∀ m ∈ (markMessagesAsRead db cid uid).1.messages,
      m.conversationId = cid →
      m.senderId = (if uid == conversation.participant1Id
        then conversation.participant2Id else conversation.participant1Id) →
      m.read = true) ∧
    (∀ m ∈ db.messages, m.conversationId = cid →
      m.senderId = (if uid == conversation.participant1Id
        then conversation.participant2Id else conversation.participant1Id) →
      m.read = false →
      { m with read := true, readAt := some db.now } ∈
        (markMessagesAsRead db cid uid).1.messages) ∧
    (∀ m ∈ db.messages,
      ¬(m.conversationId = cid ∧
        m.senderId = (if uid == conversation.participant1Id
          then conversation.participant2Id else conversation.participant1Id) ∧
        m.read = false) →
      m ∈ (markMessagesAsRead db cid uid).1.messages) ∧
    (markMessagesAsRead (markMessagesAsRead db cid uid).1 cid uid).2 = .ok () ∧
    (markMessagesAsRead (markMessagesAsRead db cid uid).1 cid uid).1.conversations =
      (markMessagesAsRead db cid uid).1.conversations ∧
    (markMessagesAsRead (markMessagesAsRead db cid uid).1 cid uid).1.messages =
      (markMessagesAsRead db cid uid).1.messages := by
  obtain ⟨hfind, hpart⟩ := getConversation_ok_iff.mp hok
  have hrun := markMessagesAsRead_run hok
  have hidpres : ∀ c : Conversation,
      ((zeroCounterFn cid (uid == conversation.participant1Id) c).id == cid) =
        (c.id == cid) := by
    intro c
    rw [zeroCounterFn_id]
  have hfind2 : (markMessagesAsRead db cid uid).1.conversations.find?
      (fun c => c.id == cid) =
      some (zeroCounterFn cid (uid == conversation.participant1Id) conversation) := by
    rw [hrun]
    dsimp only
    rw [find?_map_eq _ _ _ hidpres, hfind]
    rfl
  have hok2 : getConversation (markMessagesAsRead db cid uid).1 cid uid =
      .ok (zeroCounterFn cid (uid == conversation.participant1Id) conversation) := by
    apply getConversation_ok_iff.mpr
    refine ⟨hfind2, ?_⟩
    rw [zeroCounterFn_participant1, zeroCounterFn_participant2]
    exact hpart
  refine ⟨by rw [hrun], ?_, ?_, ?_, ?_, by rw [markMessagesAsRead_run hok2], ?_, ?_⟩
  · intro c hc hcid
    rw [hrun] at hc
    dsimp only at hc
    rcases List.mem_map.mp hc with ⟨c0, hc0, rfl⟩
    rw [zeroCounterFn_id] at hcid
    by_cases hu : (uid == conversation.participant1Id) = true
    · simp only [hu, if_true]
      unfold zeroCounterFn
      simp [hcid, hu]
    · simp only [hu, if_false]
      unfold zeroCounterFn
      simp [hcid, hu]
  · intro m hm hconv hsender
    rw [hrun] at hm
    dsimp only at hm
    rcases List.mem_map.mp hm with ⟨m0, hm0, rfl⟩
    by_cases h0 : (m0.conversationId == cid &&
        m0.senderId == (if uid == conversation.participant1Id
          then conversation.participant2Id else conversation.participant1Id) &&
        m0.read == false) = true
    · unfold markReadFn
      rw [if_pos h0]
    · have hid : markReadFn cid
          (if uid == conversation.participant1Id then conversation.participant2Id
           else conversation.participant1Id) db.now m0 = m0 := by
        unfold markReadFn
        rw [if_neg h0]
      rw [hid] at hconv hsender ⊢
      simp only [Bool.and_eq_true, beq_iff_eq, not_and] at h0
      simp only [beq_iff_eq] at hsender
      have := h0 ⟨hconv, hsender⟩
      cases hr : m0.read
      · exact absurd hr this
      · rfl
  · intro m hm hconv hsender hread
    rw [hrun]
    dsimp only
    apply List.mem_map.mpr
    refine ⟨m, hm, ?_⟩
    unfold markReadFn
    rw [if_pos (by simp [hconv, hsender, hread])]
  · intro m hm hnot
    rw [hrun]
    dsimp only
    apply List.mem_map.mpr
    refine ⟨m, hm, ?_⟩
    by_cases hcond : (m.conversationId == cid &&
        m.senderId == (if uid == conversation.participant1Id
          then conversation.participant2Id else conversation.participant1Id) &&
        m.read == false) = true
    · exfalso
      apply hnot
      simpa [Bool.and_eq_true, beq_iff_eq, and_assoc] using hcond
    · unfold markReadFn
      rw [if_neg hcond]
  · rw [markMessagesAsRead_run hok2]
    dsimp only
    rw [hrun]
    dsimp only
    rw [zeroCounterFn_participant1]
    rw [List.map_map]
    rw [show zeroCounterFn cid (uid == conversation.participant1Id) ∘
        zeroCounterFn cid (uid == conversation.participant1Id) =
        zeroCounterFn cid (uid == conversation.participant1Id) from
      funext (zeroCounterFn_idem cid _)]
  · rw [markMessagesAsRead_run hok2]
    dsimp only
    rw [hrun]
    dsimp only
    rw [zeroCounterFn_participant1, zeroCounterFn_participant2]
    rw [List.map_map]
    rw [show markReadFn cid
        (if uid == conversation.participant1Id then conversation.participant2Id
         else conversation.participant1Id) db.now ∘
        markReadFn cid
        (if uid == conversation.participant1Id then conversation.participant2Id
         else conversation.participant1Id) db.now =
        markReadFn cid
        (if uid == conversation.participant1Id then conversation.participant2Id
         else conversation.participant1Id) db.now from
      funext (markReadFn_idem cid _ db.now)]

/-- Witness for `c6_markMessagesAsRead_correct_and_idempotent`: `u2`
marks the base conversation read; doing it twice changes no message. -/
theorem c6_markMessagesAsRead_correct_and_idempotent_witness :
    (markMessagesAsRead (markMessagesAsRead dbBase "c1" "u2").1 "c1" "u2").1.messages =
      (markMessagesAsRead dbBase "c1" "u2").1.messages :=
  (c6_markMessagesAsRead_correct_and_idempotent dbBase "c1" "u2" convAB
    (by decide)).2.2.2.2.2.2.2

/-! ## Claim C7 -/

/-- Claim C7: every message `getMessages` returns is a message of the
conversation with `deletedAt` unset whose side-flag for the requester is
clear; within a returned page messages are ordered oldest-to-newest;
every visible message appears on some page (pagination covers the whole
visible set); and page 1 holds the most recent messages — anything on
page 1 is at least as recent as any visible message page 1 leaves out. -/
theorem c7_getMessages_visibility_and_order (db : DB) (cid uid : String)
    (page limit : Nat) (data : List Message) (meta : PageMeta)
    (hlim : 0 < limit)
    (h : getMessages db cid uid page limit = .ok (data, meta)) :
    (∀ m ∈ data, visibleTo cid uid m = true) ∧
    data.Pairwise (fun a b => a.createdAt ≤ b.createdAt) ∧
    (∀ m ∈ db.messages, visibleTo cid uid m = true →
      ∃ (p : Nat) (data' : List Message) (meta' : PageMeta),
        getMessages db cid uid (p + 1) limit = .ok (data', meta') ∧
        m ∈ data') ∧
    (∀ (d1 : List Message) (m1 : PageMeta),
      getMessages db cid uid 1 limit = .ok (d1, m1) →
      ∀ x ∈ d1, ∀ y ∈ db.messages, visibleTo cid uid y = true → y ∉ d1 →
        y.createdAt ≤ x.createdAt) := by
  obtain ⟨conv, hconv⟩ := getMessages_ok_conv h
  have hrun := getMessages_run hconv page limit
  rw [hrun] at h
  injection h with h'
  have hdata : pageOf db cid uid page limit = data := by
    have := congrArg Prod.fst h'
    simpa using this
  have hsorted : (visibleSorted db cid uid).Pairwise newerEq :=
    List.sorted_insertionSort newerEq _
  have hmemsorted : ∀ m : Message,
      m ∈ visibleSorted db cid uid ↔
        m ∈ db.messages ∧ visibleTo cid uid m = true := by
    intro m
    unfold visibleSorted
    rw [List.mem_insertionSort, List.mem_filter]
  refine ⟨?_, ?_, ?_, ?_⟩
  · intro m hm
    rw [← hdata] at hm
    unfold pageOf at hm
    rw [List.mem_reverse] at hm
    have hm2 : m ∈ (visibleSorted db cid uid).drop ((page - 1) * limit) :=
      List.take_subset _ _ hm
    have hm3 : m ∈ visibleSorted db cid uid := List.drop_subset _ _ hm2
    exact ((hmemsorted m).mp hm3).2
  · rw [← hdata]
    unfold pageOf
    rw [List.pairwise_reverse]
    have hsub : List.Sublist
        (((visibleSorted db cid uid).drop ((page - 1) * limit)).take limit)
        (visibleSorted db cid uid) :=
      (List.take_sublist _ _).trans (List.drop_sublist _ _)
    exact (hsorted.sublist hsub).imp (fun hab => hab)
  · intro m hm hvis
    have hmem : m ∈ visibleSorted db cid uid := (hmemsorted m).mpr ⟨hm, hvis⟩
    rcases exists_chunk limit hlim (visibleSorted db cid uid).length
        (visibleSorted db cid uid) m le_rfl hmem with ⟨p, hp⟩
    refine ⟨p, pageOf db cid uid (p + 1) limit, _,
      getMessages_run hconv (p + 1) limit, ?_⟩
    unfold pageOf
    rw [List.mem_reverse]
    have hskip : (p + 1 - 1) * limit = p * limit := by simp
    rw [hskip]
    exact hp
  · intro d1 m1 h1 x hx y hy hvisy hnot
    have hrun1 := getMessages_run hconv 1 limit
    rw [hrun1] at h1
    injection h1 with h1'
    have hdata1 : pageOf db cid uid 1 limit = d1 := by
      have := congrArg Prod.fst h1'
      simpa using this
    have hd1 : d1 = ((visibleSorted db cid uid).take limit).reverse := by
      rw [← hdata1]
      unfold pageOf
      norm_num
    have hx2 : x ∈ (visibleSorted db cid uid).take limit := by
      rw [hd1] at hx
      exact List.mem_reverse.mp hx
    have hymem : y ∈ visibleSorted db cid uid := (hmemsorted y).mpr ⟨hy, hvisy⟩
    have hynot : y ∉ (visibleSorted db cid uid).take limit := by
      intro hcon
      apply hnot
      rw [hd1]
      exact List.mem_reverse.mpr hcon
    have hydrop : y ∈ (visibleSorted db cid uid).drop limit := by
      have hsplit := List.take_append_drop limit (visibleSorted db cid uid)
      have hy2 : y ∈ (visibleSorted db cid uid).take limit ++
          (visibleSorted db cid uid).drop limit := by
        rw [hsplit]
        exact hymem
      rcases List.mem_append.mp hy2 with hcase | hcase
      · exact absurd hcase hynot
      · exact hcase
    have hpw : ((visibleSorted db cid uid).take limit ++
        (visibleSorted db cid uid).drop limit).Pairwise newerEq := by
      rw [List.take_append_drop]
      exact hsorted
    exact (List.pairwise_append.mp hpw).2.2 x hx2 y hydrop

/-- Witness for `c7_getMessages_visibility_and_order`: page 1 of size 2
over three messages is the two newest, presented oldest-to-newest. -/
theorem c7_getMessages_visibility_and_order_witness :
    List.Pairwise (fun a b : Message => a.createdAt ≤ b.createdAt)
      [{ msgUnread with id := "m2", senderId := "u2", createdAt := 2 },
       { msgUnread with id := "m3", createdAt := 3 }] :=
  (c7_getMessages_visibility_and_order dbPages "c1" "u1" 1 2
    [{ msgUnread with id := "m2", senderId := "u2", createdAt := 2 },
     { msgUnread with id := "m3", createdAt := 3 }]
    { page := 1, limit := 2, total := 3, totalPages := 2, hasNext := true,
      hasPrevious := false }
    (by decide) (by decide)).2.1

/-! ## Claim C8 -/

/-- Claim C8: `deleteMessage` rejects with not-found when the message row
is missing; rejects with forbidden when the requester is not a
participant of the message's conversation; rejects with forbidden when
`scope = sender` without authorship or `scope = receiver` with
authorship; and `scope = both`, permitted to either participant, sets
`deletedAt` and both per-side flags. -/
theorem c8_deleteMessage_authorization (db : DB) (mid uid : String) :
    (∀ scope, db.messages.find? (fun m => m.id == mid) = none →
        deleteMessage db mid uid scope = (db, .error .notFound)) ∧
    (∀ scope msg conv,
        db.messages.find? (fun m => m.id == mid) = some msg →
        db.conversations.find? (fun c => c.id == msg.conversationId) = some conv →
        conv.participant1Id ≠ uid → conv.participant2Id ≠ uid →
        deleteMessage db mid uid scope = (db, .error .forbidden)) ∧
    (∀ msg conv,
        db.messages.find? (fun m => m.id == mid) = some msg →
        db.conversations.find? (fun c => c.id == msg.conversationId) = some conv →
        (conv.participant1Id = uid ∨ conv.participant2Id = uid) →
        msg.senderId ≠ uid →
        deleteMessage db mid uid .sender = (db, .error .forbidden)) ∧
    (∀ msg conv,
        db.messages.find? (fun m => m.id == mid) = some msg →
        db.conversations.find? (fun c => c.id == msg.conversationId) = some conv →
        (conv.participant1Id = uid ∨ conv.participant2Id = uid) →
        msg.senderId = uid →
        deleteMessage db mid uid .receiver = (db, .error .forbidden)) ∧
    (∀ msg conv,
        db.messages.find? (fun m => m.id == mid) = some msg →
        db.conversations.find? (fun c => c.id == msg.conversationId) = some conv →
        (conv.participant1Id = uid ∨ conv.participant2Id = uid) →
        deleteMessage db mid uid .both =
          ({ db with messages := db.messages.map (fun m =>
              if m.id == mid then
                { m with
                    deletedAt := some db.now
                    deletedBySender := true
                    deletedByReceiver := true }
              else m) },
           .ok ())) := by
  refine ⟨?_, ?_, ?_, ?_, ?_⟩
  · intro scope hnone
    unfold deleteMessage
    rw [hnone]
  · intro scope msg conv hmsg hconv h1 h2
    unfold deleteMessage
    rw [hmsg]
    dsimp only
    rw [hconv]
    dsimp only
    have hc : (conv.participant1Id != uid && conv.participant2Id != uid) = true := by
      simp [bne_iff_ne]
      exact ⟨h1, h2⟩
    simp [hc]
  · intro msg conv hmsg hconv hpart hsender
    unfold deleteMessage
    rw [hmsg]
    dsimp only
    rw [hconv]
    dsimp only
    have hc : (conv.participant1Id != uid && conv.participant2Id != uid) = false := by
      rcases hpart with h | h <;> simp [h]
    simp [hc, hsender]
  · intro msg conv hmsg hconv hpart hsender
    unfold deleteMessage
    rw [hmsg]
    dsimp only
    rw [hconv]
    dsimp only
    have hc : (conv.participant1Id != uid && conv.participant2Id != uid) = false := by
      rcases hpart with h | h <;> simp [h]
    simp [hc, hsender]
  · intro msg conv hmsg hconv hpart
    unfold deleteMessage
    rw [hmsg]
    dsimp only
    rw [hconv]
    dsimp only
    have hc : (conv.participant1Id != uid && conv.participant2Id != uid) = false := by
      rcases hpart with h | h <;> simp [h]
    simp [hc]

/-- Witness for `c8_deleteMessage_authorization`: a delete-for-both by
the receiving participant on the base state. -/
theorem c8_deleteMessage_authorization_witness :
    deleteMessage dbBase "m1" "u2" .both =
      ({ dbBase with messages := dbBase.messages.map (fun m =>
          if m.id == "m1" then
            { m with
                deletedAt := some dbBase.now
                deletedBySender := true
                deletedByReceiver := true }
          else m) },
       .ok ()) :=
  (c8_deleteMessage_authorization dbBase "m1" "u2").2.2.2.2 msgUnread convAB
    (by decide) (by decide) (Or.inr rfl)

/-! ## Claim C9 -/

/-- Claim C9 fails on the code as stated: starting a conversation with
oneself is rejected before any mutation, but with a
`BadRequestException` (HTTP 400), not a forbidden error — the controller
even documents status 400 for this endpoint. -/
theorem c9_self_conversation_error_kind_counterexample :
    getOrCreateConversation dbUsersOnly "u1" "u1" = (dbUsersOnly, .error .badRequest) ∧
    Err.badRequest ≠ Err.forbidden := by
  exact ⟨rfl, by decide⟩

/-- Claim C9 (amended): for every state and every user id, a
self-conversation request is rejected with a bad-request error before any
mutation — the state is returned unchanged, so no conversation row is
created. -/
theorem c9_self_conversation_badRequest (db : DB) (u : String) :
    getOrCreateConversation db u u = (db, .error .badRequest) := by
  simp [getOrCreateConversation]

/-! ## Claim C10 -/

/-- Claim C10: the pagination `total` of `getMessages` counts every
non-hard-deleted message of the conversation, including those
soft-deleted for the requesting user — `total` always equals the visible
count plus the count of messages hidden only by the requester's
side-flag; on a state whose only message is soft-deleted for the
requester, `total = 1` while every page's `data` is empty, so `total`
strictly exceeds what `data` can ever return. -/
theorem c10_total_counts_soft_deleted :
    (∀ (db : DB) (cid uid : String) (page limit : Nat)
        (data : List Message) (meta : PageMeta),
        getMessages db cid uid page limit = .ok (data, meta) →
        meta.total = db.messages.countP (visibleTo cid uid) +
          db.messages.countP (fun m => countedInTotal cid m && !(visibleTo cid uid m))) ∧
    (∃ meta : PageMeta, getMessages dbHidden "c1" "u2" 1 50 = .ok ([], meta) ∧
      meta.total = 1) ∧
    (∀ (page limit : Nat) (data : List Message) (meta : PageMeta),
        getMessages dbHidden "c1" "u2" page limit = .ok (data, meta) →
        data = []) := by
  have hconvH : getConversation dbHidden "c1" "u2" =
      .ok { convAB with unreadCount2 := 0 } := by decide
  refine ⟨?_, ?_, ?_⟩
  · intro db cid uid page limit data meta h
    obtain ⟨conv, hconv⟩ := getMessages_ok_conv h
    rw [getMessages_run hconv] at h
    injection h with h'
    have hmeta := congrArg Prod.snd h'
    dsimp at hmeta
    rw [← hmeta]
    dsimp only
    unfold totalOf
    rw [← List.countP_eq_length_filter]
    rw [countP_split db.messages (countedInTotal cid) (visibleTo cid uid)]
    congr 1
    exact List.countP_congr (fun m _ => by rw [countedInTotal_and_visibleTo])
  · exact Exists.intro
      { page := 1
        limit := 50
        total := 1
        totalPages := 1
        hasNext := false
        hasPrevious := false }
      ⟨by decide, rfl⟩
  · intro page limit data meta h
    rw [getMessages_run hconvH] at h
    injection h with h'
    have hdata := congrArg Prod.fst h'
    dsimp at hdata
    rw [← hdata]
    have hvs : visibleSorted dbHidden "c1" "u2" = [] := by decide
    unfold pageOf
    rw [hvs]
    simp

/-- Witness for `c10_total_counts_soft_deleted` on the base state, where
the single message is visible. -/
theorem c10_total_counts_soft_deleted_witness :
    ({ page := 1, limit := 50, total := 1, totalPages := 1, hasNext := false,
       hasPrevious := false } : PageMeta).total =
      dbBase.messages.countP (visibleTo "c1" "u2") +
        dbBase.messages.countP
          (fun m => countedInTotal "c1" m && !(visibleTo "c1" "u2" m)) :=
  c10_total_counts_soft_deleted.1 dbBase "c1" "u2" 1 50 [msgUnread] _ (by decide)

end TB
